import Mathlib

/-!
Shallow embedding of the Flask todo-list application (`app.py`).

The store is modelled as the list of persisted `Todo` rows together with the
next autoincrement id.  Each HTTP handler becomes a pure function from the
store (and the request's JSON fields, absent fields being `none`) to the pair
of the HTTP response (status code and body) and the resulting store.

ORM semantics: attribute assignments on a fetched row are session-local until
`db.session.commit()`; every handler path that returns before the commit ends
the request with the session rolled back, so the persisted store is unchanged
on those paths.  The embedding therefore builds a draft row and writes it to
the store only on the path that reaches the commit.

`Todo.query.get_or_404` raises a `NotFound` exception; `NotFound` is a
subclass of `Exception`, so the handlers' blanket `except Exception` clauses
catch it and answer with status 400 whose message is `str(e)`, which begins
with "404 Not Found".  The embedding encodes that message as "404 Not Found".
-/

set_option maxRecDepth 8000

/-- Python's `str.strip()`: remove leading and trailing whitespace. -/
def strip (s : String) : String :=
  ⟨((s.data.dropWhile Char.isWhitespace).reverse.dropWhile Char.isWhitespace).reverse⟩

/-- A persisted row of the `Todo` model: integer primary key, content string,
priority string, creation timestamp (modelled as a natural number). -/
structure Todo where
  id : Nat
  content : String
  priority : String
  created_at : Nat
deriving DecidableEq, Repr

/-- The persistent store: the table of rows plus the next autoincrement id. -/
structure Store where
  todos : List Todo
  nextId : Nat
deriving DecidableEq, Repr

/-- The empty database; SQLite autoincrement ids start at 1. -/
def Store.empty : Store := ⟨[], 1⟩

/-- `Todo.query.get(i)`: fetch the row with primary key `i`, if any. -/
def getById (s : Store) (i : Nat) : Option Todo :=
  s.todos.find? (fun t => t.id == i)

/-- The priority rank used by the `case` expression in `get_todos`:
`high` = 3, `medium` = 2, `low` = 1, anything else 0. -/
def rank (p : String) : Nat :=
  if p = "high" then 3 else if p = "medium" then 2 else if p = "low" then 1 else 0

/-- The order produced by `order_by(priority_order.desc(), Todo.created_at.desc())`:
`a` comes no later than `b` iff `a` has strictly greater rank, or equal rank
and a creation time no earlier than `b`'s. -/
def todoRel (a b : Todo) : Prop :=
  rank b.priority < rank a.priority ∨
    (rank a.priority = rank b.priority ∧ b.created_at ≤ a.created_at)

instance : DecidableRel todoRel := fun a b =>
  inferInstanceAs (Decidable (rank b.priority < rank a.priority ∨
    (rank a.priority = rank b.priority ∧ b.created_at ≤ a.created_at)))

/-- The `statistics` object of the list response. -/
structure Statistics where
  total : Nat
  high_priority : Nat
  medium_priority : Nat
  low_priority : Nat
deriving DecidableEq, Repr

/-- `GET /api/todos` (success path): the rows ordered by rank descending then
`created_at` descending, together with the aggregate counts computed from the
returned list. -/
def get_todos (s : Store) : List Todo × Statistics :=
  let todos := List.insertionSort todoRel s.todos
  (todos,
    { total := todos.length
      high_priority := todos.countP (fun t => t.priority == "high")
      medium_priority := todos.countP (fun t => t.priority == "medium")
      low_priority := todos.countP (fun t => t.priority == "low") })

/-- Body of the `POST /api/todos` response. -/
inductive CreateBody where
  | ok (id : Nat) (content : String) (priority : String)
  | err (msg : String)
deriving DecidableEq, Repr

/-- `POST /api/todos` (`add_todo`): `content` defaults to `""` then is
stripped; empty content is a 400; otherwise a new row is inserted with the
submitted priority (defaulting to `"medium"`) and the current timestamp. -/
def add_todo (s : Store) (content priority : Option String) (now : Nat) :
    (Nat × CreateBody) × Store :=
  let c := strip (content.getD "")
  if c = "" then
    ((400, CreateBody.err "Content is required"), s)
  else
    let t : Todo := ⟨s.nextId, c, priority.getD "medium", now⟩
    ((201, CreateBody.ok t.id t.content t.priority),
      ⟨s.todos ++ [t], s.nextId + 1⟩)

/-- Body of the `DELETE /api/todos/<id>` response. -/
inductive DeleteBody where
  | ok (message : String)
  | err (msg : String)
deriving DecidableEq, Repr

/-- `DELETE /api/todos/<id>` (`delete_todo`): `get_or_404` on a missing id
raises `NotFound`, which the blanket `except Exception` turns into a 400
response; otherwise the row is deleted and committed. -/
def delete_todo (s : Store) (i : Nat) : (Nat × DeleteBody) × Store :=
  match getById s i with
  | none => ((400, DeleteBody.err "404 Not Found"), s)
  | some _ =>
      ((200, DeleteBody.ok "Todo deleted successfully"),
        ⟨s.todos.filter (fun t => !(t.id == i)), s.nextId⟩)

/-- Body of the `PUT /api/todos/<id>` response. -/
inductive UpdateBody where
  | ok (id : Nat) (content : String) (priority : String) (created_at : Nat)
  | err (msg : String)
deriving DecidableEq, Repr

/-- `PUT /api/todos/<id>` (`update_todo`): fetch via `get_or_404` (missing id
becomes a 400 through the blanket `except`), then apply the supplied fields in
order — content stripped and rejected if empty, priority rejected unless one
of `high`/`medium`/`low` — and commit only if both checks pass; the early
error returns leave the store unchanged (session rollback). -/
def update_todo (s : Store) (i : Nat) (content priority : Option String) :
    (Nat × UpdateBody) × Store :=
  match getById s i with
  | none => ((400, UpdateBody.err "404 Not Found"), s)
  | some t =>
    let step1 : Option Todo :=
      match content with
      | none => some t
      | some c => if strip c = "" then none else some { t with content := strip c }
    match step1 with
    | none => ((400, UpdateBody.err "Content cannot be empty"), s)
    | some t1 =>
      let step2 : Option Todo :=
        match priority with
        | none => some t1
        | some p =>
            if p ∈ (["high", "medium", "low"] : List String) then
              some { t1 with priority := p }
            else none
      match step2 with
      | none => ((400, UpdateBody.err "Invalid priority value"), s)
      | some t2 =>
          ((200, UpdateBody.ok t2.id t2.content t2.priority t2.created_at),
            { s with todos := s.todos.map (fun x => if x.id = i then t2 else x) })

/-- Body of the `POST /api/assistant` response. -/
inductive AiBody where
  | ok (response : String)
  | err (msg : String)
deriving DecidableEq, Repr

/-- `POST /api/assistant` (`get_ai_response`): `available` is the module-level
`GENAI_AVAILABLE` flag and `generate` stands for `model.generate_content`
followed by `.text`.  The third component records the prompt actually sent to
the external service (`none` when the service was not invoked).  The handler
checks availability first, then rejects an empty `input`, and otherwise sends
the fixed instructional prefix followed by the input. -/
def get_ai_response (available : Bool) (generate : String → String)
    (input : Option String) : (Nat × AiBody) × Option String :=
  if available = false then
    ((503, AiBody.err "AI assistant is not available"), none)
  else
    let user_input := input.getD ""
    if user_input = "" then
      ((400, AiBody.err "Empty input"), none)
    else
      let prompt := "As a todo list assistant, help with this question: " ++ user_input
      ((200, AiBody.ok (generate prompt)), some prompt)

/-- Store well-formedness: every persisted id is below the autoincrement
counter (so a freshly inserted row's id is fresh). -/
def Store.WF (s : Store) : Prop := ∀ t ∈ s.todos, t.id < s.nextId

/-- The content half of the spec's persistence invariant. -/
def ContentInv (s : Store) : Prop := ∀ t ∈ s.todos, t.content ≠ ""

/-- The priority half of the spec's persistence invariant. -/
def PriorityInv (s : Store) : Prop :=
  ∀ t ∈ s.todos, t.priority ∈ (["high", "medium", "low"] : List String)

instance : IsTotal Todo todoRel where
  total a b := by
    unfold todoRel
    rcases Nat.lt_trichotomy (rank a.priority) (rank b.priority) with h | h | h
    · exact Or.inr (Or.inl h)
    · rcases Nat.le_total b.created_at a.created_at with hc | hc
      · exact Or.inl (Or.inr ⟨h, hc⟩)
      · exact Or.inr (Or.inr ⟨h.symm, hc⟩)
    · exact Or.inl (Or.inl h)

instance : IsTrans Todo todoRel where
  trans a b c hab hbc := by
    unfold todoRel at *
    rcases hab with h1 | ⟨h1, h1c⟩ <;> rcases hbc with h2 | ⟨h2, h2c⟩
    · exact Or.inl (Nat.lt_trans h2 h1)
    · exact Or.inl (h2 ▸ h1)
    · exact Or.inl (h1 ▸ h2)
    · exact Or.inr ⟨h1.trans h2, Nat.le_trans h2c h1c⟩

/-- Every todo of a list with only enum priorities is counted by exactly one
of the three per-priority counters, so the counters sum to the length. -/
theorem length_eq_sum_counts (l : List Todo)
    (h : ∀ t ∈ l, t.priority ∈ (["high", "medium", "low"] : List String)) :
    l.length = l.countP (fun t => t.priority == "high") +
      l.countP (fun t => t.priority == "medium") +
      l.countP (fun t => t.priority == "low") := by
  induction l with
  | nil => simp
  | cons t l ih =>
    have ht := h t (List.mem_cons_self t l)
    have hl : ∀ x ∈ l, x.priority ∈ (["high", "medium", "low"] : List String) :=
      fun x hx => h x (List.mem_cons_of_mem t hx)
    simp only [List.mem_cons, List.mem_singleton, List.not_mem_nil, or_false] at ht
    rcases ht with h1 | h1 | h1 <;>
      simp [List.countP_cons, h1, ih hl] <;> omega

/-- Any row of the store produced by `update_todo` is either an untouched row
of the old store or the committed rewrite of an existing row: same id and
creation time, content either untouched or the non-empty strip of the
supplied content, priority either untouched or a member of the enum. -/
theorem update_todo_mem (s : Store) (i : Nat) (c p : Option String) (x : Todo)
    (hx : x ∈ (update_todo s i c p).2.todos) :
    x ∈ s.todos ∨
    ∃ t ∈ s.todos, x.id = t.id ∧ x.created_at = t.created_at ∧
      (x.content = t.content ∨ ∃ cs, c = some cs ∧ x.content = strip cs ∧ strip cs ≠ "") ∧
      (x.priority = t.priority ∨ x.priority ∈ (["high", "medium", "low"] : List String)) := by
  cases hg : getById s i with
  | none => simp only [update_todo, hg] at hx; exact Or.inl hx
  | some t =>
    have ht : t ∈ s.todos := List.mem_of_find?_eq_some hg
    have finish : ∀ t2 : Todo,
        x ∈ (s.todos.map (fun y => if y.id = i then t2 else y)) →
        t2.id = t.id → t2.created_at = t.created_at →
        (t2.content = t.content ∨ ∃ cs, c = some cs ∧ t2.content = strip cs ∧ strip cs ≠ "") →
        (t2.priority = t.priority ∨ t2.priority ∈ (["high", "medium", "low"] : List String)) →
        x ∈ s.todos ∨
        ∃ t' ∈ s.todos, x.id = t'.id ∧ x.created_at = t'.created_at ∧
          (x.content = t'.content ∨ ∃ cs, c = some cs ∧ x.content = strip cs ∧ strip cs ≠ "") ∧
          (x.priority = t'.priority ∨ x.priority ∈ (["high", "medium", "low"] : List String)) := by
      intro t2 hmem hid hca hco hpr
      rcases List.mem_map.mp hmem with ⟨a, ha, heq⟩
      by_cases hai : a.id = i
      · rw [if_pos hai] at heq
        exact Or.inr ⟨t, ht, heq ▸ ⟨hid, hca, hco, hpr⟩⟩
      · rw [if_neg hai] at heq
        exact Or.inl (heq ▸ ha)
    cases c with
    | none =>
      cases p with
      | none =>
        simp only [update_todo, hg] at hx
        exact finish t hx rfl rfl (Or.inl rfl) (Or.inl rfl)
      | some ps =>
        by_cases hp : ps ∈ (["high", "medium", "low"] : List String)
        · simp only [update_todo, hg, hp, if_true] at hx
          exact finish _ hx rfl rfl (Or.inl rfl) (Or.inr hp)
        · simp only [update_todo, hg, hp, if_false] at hx
          exact Or.inl hx
    | some cs =>
      by_cases hc : strip cs = ""
      · simp only [update_todo, hg, hc, if_true] at hx
        exact Or.inl hx
      · simp only [update_todo, hg, hc, if_false] at hx
        cases p with
        | none => exact finish _ hx rfl rfl (Or.inr ⟨cs, rfl, rfl, hc⟩) (Or.inl rfl)
        | some ps =>
          by_cases hp : ps ∈ (["high", "medium", "low"] : List String)
          · simp only [hp, if_true] at hx
            exact finish _ hx rfl rfl (Or.inr ⟨cs, rfl, rfl, hc⟩) (Or.inr hp)
          · simp only [hp, if_false] at hx
            exact Or.inl hx

/-- Any row of the store produced by `add_todo` is an old row or the freshly
inserted row, which carries the stripped content (non-empty, or the insert
would not have happened) and the defaulted priority. -/
theorem add_todo_mem (s : Store) (c p : Option String) (now : Nat) (x : Todo)
    (hx : x ∈ (add_todo s c p now).2.todos) :
    x ∈ s.todos ∨
      (x = ⟨s.nextId, strip (c.getD ""), p.getD "medium", now⟩ ∧
        strip (c.getD "") ≠ "") := by
  by_cases hc : strip (c.getD "") = ""
  · simp only [add_todo, hc, if_true] at hx
    exact Or.inl hx
  · simp only [add_todo, hc, if_false] at hx
    rcases List.mem_append.mp hx with h | h
    · exact Or.inl h
    · exact Or.inr ⟨List.mem_singleton.mp h, hc⟩

/-- `delete_todo` only removes rows: every remaining row was already there. -/
theorem delete_todo_mem (s : Store) (i : Nat) (x : Todo)
    (hx : x ∈ (delete_todo s i).2.todos) : x ∈ s.todos := by
  cases hg : getById s i with
  | none => simp only [delete_todo, hg] at hx; exact hx
  | some t =>
    simp only [delete_todo, hg] at hx
    exact List.mem_of_mem_filter hx

/-- C1: `get_todos` returns the stored tasks (a permutation of the table)
sorted by priority rank descending with `created_at` descending as the
tie-break; on the concrete store with priorities [low, high, medium, high]
at increasing timestamps it returns [high(later), high(earlier), medium, low]. -/
theorem get_todos_ordering (s : Store) :
    (List.Sorted todoRel (get_todos s).1 ∧ List.Perm (get_todos s).1 s.todos) ∧
    (get_todos ⟨[⟨1, "a", "low", 1⟩, ⟨2, "b", "high", 2⟩, ⟨3, "c", "medium", 3⟩,
        ⟨4, "d", "high", 4⟩], 5⟩).1 =
      [⟨4, "d", "high", 4⟩, ⟨2, "b", "high", 2⟩, ⟨3, "c", "medium", 3⟩,
        ⟨1, "a", "low", 1⟩] :=
  ⟨⟨List.sorted_insertionSort todoRel s.todos, List.perm_insertionSort todoRel s.todos⟩,
    by decide⟩

/-- C6: in every successful list response the per-priority statistics count
exactly the returned tasks of that priority, and when every stored task has
an enum priority the total equals their sum. -/
theorem get_todos_statistics (s : Store)
    (h : ∀ t ∈ s.todos, t.priority ∈ (["high", "medium", "low"] : List String)) :
    (get_todos s).2.total = (get_todos s).2.high_priority +
      (get_todos s).2.medium_priority + (get_todos s).2.low_priority ∧
    (get_todos s).2.high_priority =
      ((get_todos s).1.countP (fun t => t.priority == "high")) ∧
    (get_todos s).2.medium_priority =
      ((get_todos s).1.countP (fun t => t.priority == "medium")) ∧
    (get_todos s).2.low_priority =
      ((get_todos s).1.countP (fun t => t.priority == "low")) := by
  refine ⟨?_, rfl, rfl, rfl⟩
  have hperm := List.perm_insertionSort todoRel s.todos
  have h' : ∀ t ∈ List.insertionSort todoRel s.todos,
      t.priority ∈ (["high", "medium", "low"] : List String) :=
    fun t ht => h t (hperm.mem_iff.mp ht)
  exact length_eq_sum_counts _ h'

/-- Witness for C6 at a concrete two-task store. -/
theorem get_todos_statistics_witness :
    (get_todos ⟨[⟨1, "a", "high", 1⟩, ⟨2, "b", "low", 2⟩], 3⟩).2.total =
      (get_todos ⟨[⟨1, "a", "high", 1⟩, ⟨2, "b", "low", 2⟩], 3⟩).2.high_priority +
      (get_todos ⟨[⟨1, "a", "high", 1⟩, ⟨2, "b", "low", 2⟩], 3⟩).2.medium_priority +
      (get_todos ⟨[⟨1, "a", "high", 1⟩, ⟨2, "b", "low", 2⟩], 3⟩).2.low_priority :=
  (get_todos_statistics ⟨[⟨1, "a", "high", 1⟩, ⟨2, "b", "low", 2⟩], 3⟩
    (by decide)).1

/-- C2 (counterexample): `add_todo` performs no priority validation, so a
create request with priority `"urgent"` succeeds (201) and persists a task
whose priority is outside the three-value enum. -/
theorem add_todo_invalid_priority_reachable :
    (add_todo Store.empty (some "buy milk") (some "urgent") 0).1.1 = 201 ∧
    ∃ t ∈ (add_todo Store.empty (some "buy milk") (some "urgent") 0).2.todos,
      t.priority = "urgent" ∧
      t.priority ∉ (["high", "medium", "low"] : List String) := by decide

/-- C2 (amended): every operation preserves the non-empty-content invariant,
and update and delete preserve the priority-enum invariant; create preserves
the priority-enum invariant only when the submitted priority (after the
`"medium"` default) lies in the enum — an arbitrary priority string is
otherwise accepted and persisted. -/
theorem store_invariants (s : Store) (i now : Nat) (c p : Option String) :
    (ContentInv s →
      ContentInv (add_todo s c p now).2 ∧
      ContentInv (update_todo s i c p).2 ∧
      ContentInv (delete_todo s i).2) ∧
    (PriorityInv s →
      PriorityInv (update_todo s i c p).2 ∧
      PriorityInv (delete_todo s i).2) ∧
    (PriorityInv s → p.getD "medium" ∈ (["high", "medium", "low"] : List String) →
      PriorityInv (add_todo s c p now).2) := by
  refine ⟨fun h => ⟨?_, ?_, ?_⟩, fun h => ⟨?_, ?_⟩, fun h hp => ?_⟩
  · intro x hx
    rcases add_todo_mem s c p now x hx with hm | ⟨he, hc⟩
    · exact h x hm
    · rw [he]; exact hc
  · intro x hx
    rcases update_todo_mem s i c p x hx with hm | ⟨t, ht, _, _, hco, _⟩
    · exact h x hm
    · rcases hco with hco | ⟨cs, _, hco, hcs⟩
      · rw [hco]; exact h t ht
      · rw [hco]; exact hcs
  · exact fun x hx => h x (delete_todo_mem s i x hx)
  · intro x hx
    rcases update_todo_mem s i c p x hx with hm | ⟨t, ht, _, _, _, hpr⟩
    · exact h x hm
    · rcases hpr with hpr | hpr
      · rw [hpr]; exact h t ht
      · exact hpr
  · exact fun x hx => h x (delete_todo_mem s i x hx)
  · intro x hx
    rcases add_todo_mem s c p now x hx with hm | ⟨he, _⟩
    · exact h x hm
    · rw [he]; exact hp

/-- Witness for the amended C2 at a concrete create on the empty store. -/
theorem store_invariants_witness :
    ContentInv (add_todo Store.empty (some "x") (some "high") 0).2 ∧
    PriorityInv (add_todo Store.empty (some "x") (some "high") 0).2 := by
  have h := store_invariants Store.empty 1 0 (some "x") (some "high")
  exact ⟨(h.1 (fun t ht => absurd ht (List.not_mem_nil t))).1,
    h.2.2 (fun t ht => absurd ht (List.not_mem_nil t)) (by decide)⟩

/-- C3: a create whose content strips to the empty string fails with 400 and
leaves the store unchanged; otherwise create answers 201 with the stripped
content and the defaulted priority, and reading the new id back immediately
afterwards returns exactly that task. -/
theorem add_todo_create_spec (s : Store) (content priority : Option String)
    (now : Nat) (hwf : Store.WF s) :
    (strip (content.getD "") = "" →
      add_todo s content priority now = ((400, CreateBody.err "Content is required"), s)) ∧
    (strip (content.getD "") ≠ "" →
      (add_todo s content priority now).1 =
        (201, CreateBody.ok s.nextId (strip (content.getD "")) (priority.getD "medium")) ∧
      getById (add_todo s content priority now).2 s.nextId =
        some ⟨s.nextId, strip (content.getD ""), priority.getD "medium", now⟩) := by
  constructor
  · intro h
    simp [add_todo, h]
  · intro h
    refine ⟨by simp [add_todo, h], ?_⟩
    have hnone : s.todos.find? (fun t => t.id == s.nextId) = none :=
      List.find?_eq_none.mpr (fun x hx => by
        simp only [beq_iff_eq]
        exact Nat.ne_of_lt (hwf x hx))
    simp [add_todo, h, getById, List.find?_append, hnone]

/-- Witness for C3: creating "  hi  " with priority high on the empty store
stores and returns the stripped content. -/
theorem add_todo_create_spec_witness :
    (add_todo Store.empty (some "  hi  ") (some "high") 7).1 =
      (201, CreateBody.ok 1 "hi" "high") ∧
    getById (add_todo Store.empty (some "  hi  ") (some "high") 7).2 1 =
      some ⟨1, "hi", "high", 7⟩ := by
  have h := (add_todo_create_spec Store.empty (some "  hi  ") (some "high") 7
    (fun t ht => absurd ht (List.not_mem_nil t))).2 (by decide)
  exact ⟨h.1.trans (by decide), h.2.trans (by decide)⟩

/-- C9 (counterexample): create applies no length check — a 201-character
content is accepted with status 201 and stored at full length. -/
theorem add_todo_accepts_201_chars :
    (add_todo Store.empty (some (String.mk (List.replicate 201 'a'))) none 0).1.1 = 201 ∧
    ∃ t ∈ (add_todo Store.empty (some (String.mk (List.replicate 201 'a'))) none 0).2.todos,
      200 < t.content.length := by decide

/-- C9 (amended): create enforces no maximum content length: any content that
is non-empty after stripping — of any length — is accepted with 201 and
persisted verbatim (stripped, untruncated). -/
theorem add_todo_no_length_limit (s : Store) (cs : String) (p : Option String)
    (now : Nat) (h : strip cs ≠ "") :
    (add_todo s (some cs) p now).1.1 = 201 ∧
    ∃ t ∈ (add_todo s (some cs) p now).2.todos, t.content = strip cs := by
  constructor
  · simp [add_todo, h]
  · refine ⟨⟨s.nextId, strip cs, p.getD "medium", now⟩, ?_, rfl⟩
    simp [add_todo, h]

/-- Witness for the amended C9 at the 201-character content. -/
theorem add_todo_no_length_limit_witness :
    (add_todo Store.empty (some (String.mk (List.replicate 201 'a'))) none 1).1.1 = 201 ∧
    ∃ t ∈ (add_todo Store.empty (some (String.mk (List.replicate 201 'a'))) none 1).2.todos,
      t.content = strip (String.mk (List.replicate 201 'a')) :=
  add_todo_no_length_limit Store.empty (String.mk (List.replicate 201 'a')) none 1
    (by decide)

/-- C4: updating an existing task with a priority outside the enum answers
400 and leaves the store — hence the stored task — entirely unchanged, also
when a valid new content accompanies the bad priority (the content
assignment is never committed). -/
theorem update_todo_invalid_priority (s : Store) (i : Nat) (c : Option String)
    (p : String) (t : Todo) (ht : getById s i = some t)
    (hp : p ∉ (["high", "medium", "low"] : List String)) :
    (update_todo s i c (some p)).1.1 = 400 ∧ (update_todo s i c (some p)).2 = s := by
  cases c with
  | none => simp [update_todo, ht, hp]
  | some cs =>
    by_cases hc : strip cs = ""
    · simp [update_todo, ht, hc]
    · simp [update_todo, ht, hc, hp]

/-- Witness for C4: updating task 1 with priority "urgent" and a valid new
content answers 400 and changes nothing. -/
theorem update_todo_invalid_priority_witness :
    (update_todo ⟨[⟨1, "a", "low", 0⟩], 2⟩ 1 (some "new") (some "urgent")).1.1 = 400 ∧
    (update_todo ⟨[⟨1, "a", "low", 0⟩], 2⟩ 1 (some "new") (some "urgent")).2 =
      ⟨[⟨1, "a", "low", 0⟩], 2⟩ :=
  update_todo_invalid_priority ⟨[⟨1, "a", "low", 0⟩], 2⟩ 1 (some "new") "urgent"
    ⟨1, "a", "low", 0⟩ (by decide) (by decide)

/-- C5 (counterexample): on a missing id both delete and update answer HTTP
400 — `get_or_404` raises `NotFound`, an `Exception` subclass, which the
blanket `except Exception` converts to a 400 — not a 404 status. -/
theorem missing_id_status_counterexample :
    (update_todo Store.empty 1 none (some "high")).1.1 = 400 ∧
    (update_todo Store.empty 1 none (some "high")).1.1 ≠ 404 ∧
    (delete_todo Store.empty 1).1.1 = 400 ∧
    (delete_todo Store.empty 1).1.1 ≠ 404 := by decide

/-- C5 (amended): on a missing id, delete and update answer status 400 with
an error message describing the not-found condition, and leave the store —
in particular its task count — unchanged. -/
theorem missing_id_behavior (s : Store) (i : Nat) (c p : Option String)
    (h : getById s i = none) :
    delete_todo s i = ((400, DeleteBody.err "404 Not Found"), s) ∧
    update_todo s i c p = ((400, UpdateBody.err "404 Not Found"), s) := by
  refine ⟨?_, ?_⟩
  · simp only [delete_todo, h]
  · simp only [update_todo, h]

/-- Witness for the amended C5 on the empty store. -/
theorem missing_id_behavior_witness :
    delete_todo Store.empty 5 = ((400, DeleteBody.err "404 Not Found"), Store.empty) ∧
    update_todo Store.empty 5 (some "x") none =
      ((400, UpdateBody.err "404 Not Found"), Store.empty) :=
  missing_id_behavior Store.empty 5 (some "x") none (by decide)

/-- After committing an update of the row with id `i` (rewriting every row of
that id to `t2`, which itself carries id `i`), looking the id up finds `t2`. -/
theorem find?_map_update (l : List Todo) (i : Nat) (t2 : Todo) (h2 : t2.id = i)
    (t : Todo) (h : l.find? (fun x => x.id == i) = some t) :
    (l.map (fun x => if x.id = i then t2 else x)).find? (fun x => x.id == i) =
      some t2 := by
  induction l with
  | nil => simp at h
  | cons a l ih =>
    by_cases hai : a.id = i
    · simp only [List.map_cons, if_pos hai]
      exact List.find?_cons_of_pos _ (by simp [h2])
    · simp only [List.map_cons, if_neg hai]
      rw [List.find?_cons_of_neg _ (by simp [hai])] at h
      rw [List.find?_cons_of_neg _ (by simp [hai])]
      exact ih h

/-- C8: an update request on an existing task — whatever its outcome — never
changes the task's id or `created_at`; its content is unchanged whenever the
request supplies no content, and its priority is unchanged whenever the
request supplies no priority. -/
theorem update_todo_frame (s : Store) (i : Nat) (c p : Option String) (t : Todo)
    (h : getById s i = some t) :
    ∃ t', getById (update_todo s i c p).2 i = some t' ∧
      t'.id = t.id ∧ t'.created_at = t.created_at ∧
      (c = none → t'.content = t.content) ∧
      (p = none → t'.priority = t.priority) := by
  have hid : t.id = i := by
    have := List.find?_some h
    simpa using this
  have commit : ∀ t2 : Todo, t2.id = t.id →
      getById { s with todos := s.todos.map (fun x => if x.id = i then t2 else x) } i =
        some t2 := by
    intro t2 h2
    exact find?_map_update s.todos i t2 (h2.trans hid) t h
  cases c with
  | none =>
    cases p with
    | none =>
      refine ⟨t, ?_, rfl, rfl, fun _ => rfl, fun _ => rfl⟩
      simp only [update_todo, h]
      exact commit t rfl
    | some ps =>
      by_cases hp : ps ∈ (["high", "medium", "low"] : List String)
      · refine ⟨{ t with priority := ps }, ?_, rfl, rfl, fun _ => rfl,
          fun hpn => Option.noConfusion hpn⟩
        simp only [update_todo, h, hp, if_true]
        exact commit _ rfl
      · refine ⟨t, ?_, rfl, rfl, fun _ => rfl, fun _ => rfl⟩
        simp only [update_todo, h, hp, if_false]
  | some cs =>
    by_cases hc : strip cs = ""
    · refine ⟨t, ?_, rfl, rfl, fun hcn => Option.noConfusion hcn, fun _ => rfl⟩
      simp only [update_todo, h, hc, if_true]
    · cases p with
      | none =>
        refine ⟨{ t with content := strip cs }, ?_, rfl, rfl,
          fun hcn => Option.noConfusion hcn, fun _ => rfl⟩
        simp only [update_todo, h, hc, if_false]
        exact commit _ rfl
      | some ps =>
        by_cases hp : ps ∈ (["high", "medium", "low"] : List String)
        · refine ⟨{ t with content := strip cs, priority := ps }, ?_, rfl, rfl,
            fun hcn => Option.noConfusion hcn, fun hpn => Option.noConfusion hpn⟩
          simp only [update_todo, h, hc, if_false, hp, if_true]
          exact commit _ rfl
        · refine ⟨t, ?_, rfl, rfl, fun hcn => Option.noConfusion hcn, fun _ => rfl⟩
          simp only [update_todo, h, hc, if_false, hp]

/-- Witness for C8: updating only the content of task 1 keeps its id,
creation time and priority. -/
theorem update_todo_frame_witness :
    ∃ t', getById (update_todo ⟨[⟨1, "a", "low", 5⟩], 2⟩ 1 (some "b") none).2 1 =
        some t' ∧
      t'.id = (⟨1, "a", "low", 5⟩ : Todo).id ∧
      t'.created_at = (⟨1, "a", "low", 5⟩ : Todo).created_at ∧
      (some "b" = none → t'.content = (⟨1, "a", "low", 5⟩ : Todo).content) ∧
      ((none : Option String) = none → t'.priority = (⟨1, "a", "low", 5⟩ : Todo).priority) :=
  update_todo_frame ⟨[⟨1, "a", "low", 5⟩], 2⟩ 1 (some "b") none ⟨1, "a", "low", 5⟩
    (by decide)

/-- C7 (counterexample): when the assistant is unavailable, a request with
empty input is answered 503 — a server-error status, not the client-error
(4xx) the claim requires for every empty-input request. -/
theorem assistant_empty_input_counterexample :
    (get_ai_response false (fun s => s) (some "")).1.1 = 503 ∧
    ¬(400 ≤ (get_ai_response false (fun s => s) (some "")).1.1 ∧
      (get_ai_response false (fun s => s) (some "")).1.1 < 500) := by decide

/-- C7 (amended): when the assistant is unavailable every request is answered
503 without invoking the external service; when it is available, an empty
input is answered 400 without invoking the service, and a non-empty input
causes exactly one call whose argument is the fixed instructional prefix
followed by the input, whose text output is returned verbatim. -/
theorem get_ai_response_spec (av : Bool) (f : String → String) (inp : Option String) :
    (av = false →
      get_ai_response av f inp =
        ((503, AiBody.err "AI assistant is not available"), none)) ∧
    (av = true → inp.getD "" = "" →
      get_ai_response av f inp = ((400, AiBody.err "Empty input"), none)) ∧
    (av = true → inp.getD "" ≠ "" →
      get_ai_response av f inp =
        ((200, AiBody.ok
            (f ("As a todo list assistant, help with this question: " ++ inp.getD ""))),
          some ("As a todo list assistant, help with this question: " ++ inp.getD ""))) := by
  refine ⟨fun h => ?_, fun h he => ?_, fun h he => ?_⟩
  · subst h; simp [get_ai_response]
  · subst h; simp [get_ai_response, he]
  · subst h; simp [get_ai_response, he]

/-- Witness for the amended C7: an available assistant relays a question. -/
theorem get_ai_response_spec_witness :
    get_ai_response true (fun s => s) (some "help me") =
      ((200, AiBody.ok "As a todo list assistant, help with this question: help me"),
        some "As a todo list assistant, help with this question: help me") :=
  ((get_ai_response_spec true (fun s => s) (some "help me")).2.2 rfl
    (by decide)).trans (by decide)

/-- C10: the availability check precedes input validation — with the
assistant unavailable every request, the empty-input one included, gets the
503 response with no call attempted, and in particular never the 400
empty-input response. -/
theorem get_ai_response_unavailable_first (f : String → String) (inp : Option String) :
    (get_ai_response false f inp).1.1 = 503 ∧
    (get_ai_response false f inp).2 = none ∧
    (get_ai_response false f inp).1.1 ≠ 400 := by
  refine ⟨?_, ?_, ?_⟩ <;> simp [get_ai_response]
